import Mathlib

/-!
Verification of the TodoForge core: the in-memory persistence store
(`MemStorage` in src/server/storage.ts), the zod request schema derived from
the drizzle table (src/shared/schema.ts), and the Express route handlers
(`registerRoutes`).

Embedding notes:
* A JS `Map` preserves insertion order; `set` on an existing key replaces the
  value in place, otherwise it appends.  We model the `todos` map as an
  insertion-ordered association list `List (String × Todo)` with exactly those
  operations (`jsGet`, `jsSet`, `jsDelete`).
* `randomUUID()` and `new Date()` are nondeterministic inputs; the embedded
  `createTodo` takes the generated id and the current time as explicit
  arguments.
* At runtime a stored todo object may lack the `completed` key entirely:
  `insertTodoSchema` marks `completed` optional (the drizzle column has a
  database-side default) and `createTodo` merely spreads the parsed insert
  object.  The runtime record type therefore carries `completed : Option Bool`,
  `none` meaning the field is absent (`undefined`).
* `Array.prototype.sort` with comparator `(a, b) => b.getTime() - a.getTime()`
  is, per the ECMAScript spec, a stable sort into descending `createdAt`
  order; we embed it as `List.insertionSort` with that ordering, which is
  likewise stable.
-/

namespace TodoForge

/-- Runtime shape of a stored todo record.  `completed` is `Option Bool`
because the JS object built in `MemStorage.createTodo` carries the field only
when the insert payload did (see the embedding notes).  `createdAt` is the
`Date` timestamp in milliseconds. -/
structure Todo where
  id : String
  text : String
  completed : Option Bool
  createdAt : Nat
deriving Repr, DecidableEq

/-- Result of `insertTodoSchema.parse`: `text` required, `completed` optional
(`none` = key absent). -/
structure InsertTodo where
  text : String
  completed : Option Bool
deriving Repr, DecidableEq

/-- Result of `insertTodoSchema.partial().parse` (`Partial<InsertTodo>`):
both fields optional. -/
structure UpdateTodo where
  text : Option String
  completed : Option Bool
deriving Repr, DecidableEq

/-- The `todos` field of `MemStorage`: a JS `Map<string, Todo>` modelled as an
insertion-ordered association list. -/
abbrev TodoMap := List (String × Todo)

/-- `Map.prototype.get`. -/
def jsGet (m : TodoMap) (k : String) : Option Todo :=
  match m with
  | [] => none
  | (k', v) :: rest => if k' = k then some v else jsGet rest k

/-- `Map.prototype.set`: replace in place when the key exists, append
otherwise. -/
def jsSet (m : TodoMap) (k : String) (v : Todo) : TodoMap :=
  match m with
  | [] => [(k, v)]
  | (k', v') :: rest => if k' = k then (k', v) :: rest else (k', v') :: jsSet rest k v

/-- `Map.prototype.delete`: remove the entry, reporting whether it existed. -/
def jsDelete (m : TodoMap) (k : String) : Bool × TodoMap :=
  match m with
  | [] => (false, [])
  | (k', v') :: rest =>
    if k' = k then (true, rest)
    else
      let r := jsDelete rest k
      (r.1, (k', v') :: r.2)

/-- The sort order used by `MemStorage.getTodos`: the comparator
`(a, b) => new Date(b.createdAt).getTime() - new Date(a.createdAt).getTime()`
places `a` before `b` exactly when `b.createdAt ≤ a.createdAt`. -/
def createdAtDesc (a b : Todo) : Prop := b.createdAt ≤ a.createdAt

instance : DecidableRel createdAtDesc := fun a b => Nat.decLe b.createdAt a.createdAt

instance : IsTotal Todo createdAtDesc :=
  ⟨fun a b => Nat.le_total b.createdAt a.createdAt⟩

instance : IsTrans Todo createdAtDesc :=
  ⟨fun _ _ _ hab hbc => Nat.le_trans hbc hab⟩

/-- `MemStorage.getTodos`: all values of the map, stably sorted by `createdAt`
descending. -/
def getTodos (m : TodoMap) : List Todo :=
  List.insertionSort createdAtDesc (m.map Prod.snd)

/-- `MemStorage.getTodo`. -/
def getTodo (id : String) (m : TodoMap) : Option Todo :=
  jsGet m id

/-- `MemStorage.createTodo`.  `freshId` is the `randomUUID()` result and `now`
the `new Date()` timestamp; the constructed object is
`{ ...insertTodo, id, createdAt: new Date() }`. -/
def createTodo (freshId : String) (now : Nat) (insertTodo : InsertTodo) (m : TodoMap) :
    Todo × TodoMap :=
  let todo : Todo := { id := freshId, text := insertTodo.text,
                       completed := insertTodo.completed, createdAt := now }
  (todo, jsSet m freshId todo)

/-- `MemStorage.updateTodo`: look up the existing record; if absent return
`undefined` leaving the map untouched, otherwise store and return the shallow
merge `{ ...existingTodo, ...updates }` under the same key.  A key present in
`updates` overrides the existing field; an absent key leaves it unchanged. -/
def updateTodo (id : String) (updates : UpdateTodo) (m : TodoMap) :
    Option Todo × TodoMap :=
  match jsGet m id with
  | none => (none, m)
  | some existingTodo =>
      let updatedTodo : Todo :=
        { id := existingTodo.id,
          text := match updates.text with
                  | some s => s
                  | none => existingTodo.text,
          completed := match updates.completed with
                       | some b => some b
                       | none => existingTodo.completed,
          createdAt := existingTodo.createdAt }
      (some updatedTodo, jsSet m id updatedTodo)

/-- `MemStorage.deleteTodo`. -/
def deleteTodo (id : String) (m : TodoMap) : Bool × TodoMap :=
  jsDelete m id

/-! ### Request bodies and the zod schemas (src/shared/schema.ts)

`insertTodoSchema = createInsertSchema(todos).omit({ id: true, createdAt: true })`
leaves two fields: `text`, a required `z.string()` (the column is `notNull`
with no default — note that any string is accepted, the empty string
included), and `completed`, an optional `z.boolean()` (the column is `notNull`
but has a default, and drizzle-zod renders such columns `.optional()` without
transplanting the database default).  zod's object parsing strips unknown
keys silently and collects one issue per offending field. -/

/-- JSON value as produced by Express's JSON body parser. -/
inductive Json where
  | null : Json
  | bool (b : Bool) : Json
  | num (n : Int) : Json
  | str (s : String) : Json
  | arr (elems : List Json) : Json
  | obj (fields : List (String × Json)) : Json
deriving Repr

/-- Field access on a parsed JSON object (`JSON.parse` yields unique keys). -/
def jsonLookup (fields : List (String × Json)) (name : String) : Option Json :=
  match fields with
  | [] => none
  | (k, v) :: rest => if k = name then some v else jsonLookup rest name

/-- One entry of a `z.ZodError`'s `errors` array, reduced to the issue code
and the offending path. -/
structure ZodIssue where
  path : String
  code : String
deriving Repr, DecidableEq

/-- `insertTodoSchema.parse(body)`: `text` must be present and a string,
`completed` may be absent (key missing) but when present must be a boolean;
anything else is a `ZodError` listing an issue per bad field. -/
def insertTodoSchemaParse (j : Json) : Except (List ZodIssue) InsertTodo :=
  match j with
  | Json.obj fields =>
      match jsonLookup fields "text", jsonLookup fields "completed" with
      | some (Json.str s), none => Except.ok ⟨s, none⟩
      | some (Json.str s), some (Json.bool b) => Except.ok ⟨s, some b⟩
      | tv, cv =>
          Except.error
            ((match tv with
              | some (Json.str _) => []
              | _ => [⟨"text", "invalid_type"⟩]) ++
             (match cv with
              | none => []
              | some (Json.bool _) => []
              | _ => [⟨"completed", "invalid_type"⟩]))
  | _ => Except.error [⟨"", "invalid_type"⟩]

/-- `insertTodoSchema.partial().parse(body)`: both fields optional, types
still enforced when the keys are present. -/
def updateTodoSchemaParse (j : Json) : Except (List ZodIssue) UpdateTodo :=
  match j with
  | Json.obj fields =>
      match jsonLookup fields "text", jsonLookup fields "completed" with
      | none, none => Except.ok ⟨none, none⟩
      | some (Json.str s), none => Except.ok ⟨some s, none⟩
      | none, some (Json.bool b) => Except.ok ⟨none, some b⟩
      | some (Json.str s), some (Json.bool b) => Except.ok ⟨some s, some b⟩
      | tv, cv =>
          Except.error
            ((match tv with
              | none => []
              | some (Json.str _) => []
              | _ => [⟨"text", "invalid_type"⟩]) ++
             (match cv with
              | none => []
              | some (Json.bool _) => []
              | _ => [⟨"completed", "invalid_type"⟩]))
  | _ => Except.error [⟨"", "invalid_type"⟩]

/-! ### The route handlers (`registerRoutes`)

Each handler becomes a function from its inputs and the current store state to
an HTTP response and the new store state.  Response bodies are kept as the
structured values handed to `res.json` / `res.send`; the catch-all 500
branches guard storage failures that the in-memory store cannot produce and are
therefore unreachable in this model. -/

/-- What the handler passes to the response: nothing (`res.status(204).send()`),
a todo, the todo list, or an error object
`{ message, errors? }`. -/
inductive Body where
  | empty : Body
  | todoJson (t : Todo) : Body
  | todoListJson (ts : List Todo) : Body
  | errorJson (message : String) (errors : Option (List ZodIssue)) : Body
deriving Repr, DecidableEq

/-- An HTTP response: status code plus the body handed to Express. -/
structure Response where
  status : Nat
  body : Body
deriving Repr, DecidableEq

/-- Handler of `GET /api/todos`. -/
def getTodosRoute (m : TodoMap) : Response × TodoMap :=
  (⟨200, Body.todoListJson (getTodos m)⟩, m)

/-- Handler of `GET /api/todos/:id`. -/
def getTodoRoute (id : String) (m : TodoMap) : Response × TodoMap :=
  match getTodo id m with
  | none => (⟨404, Body.errorJson "Todo not found" none⟩, m)
  | some t => (⟨200, Body.todoJson t⟩, m)

/-- Handler of `POST /api/todos`: validate, then create.  `freshId` and `now`
stand for the `randomUUID()` / `new Date()` results consumed on the success
path. -/
def postTodoRoute (body : Json) (freshId : String) (now : Nat) (m : TodoMap) :
    Response × TodoMap :=
  match insertTodoSchemaParse body with
  | Except.error issues => (⟨400, Body.errorJson "Invalid todo data" (some issues)⟩, m)
  | Except.ok validatedData =>
      let r := createTodo freshId now validatedData m
      (⟨201, Body.todoJson r.1⟩, r.2)

/-- Handler of `PATCH /api/todos/:id`: validate the partial body, then
update; absent id maps to 404. -/
def patchTodoRoute (id : String) (body : Json) (m : TodoMap) : Response × TodoMap :=
  match updateTodoSchemaParse body with
  | Except.error issues => (⟨400, Body.errorJson "Invalid update data" (some issues)⟩, m)
  | Except.ok updates =>
      let r := updateTodo id updates m
      match r.1 with
      | none => (⟨404, Body.errorJson "Todo not found" none⟩, r.2)
      | some t => (⟨200, Body.todoJson t⟩, r.2)

/-- Handler of `DELETE /api/todos/:id`. -/
def deleteTodoRoute (id : String) (m : TodoMap) : Response × TodoMap :=
  let r := deleteTodo id m
  if r.1 then (⟨204, Body.empty⟩, r.2)
  else (⟨404, Body.errorJson "Todo not found" none⟩, r.2)

/-! ### Reachable store states

`MemStorage` starts with `new Map()` and is mutated only through
`createTodo` / `updateTodo` / `deleteTodo`, so these are the states a running
store can be in. -/

/-- Store states reachable from the empty map through the todo operations. -/
inductive Reachable : TodoMap → Prop where
  | empty : Reachable []
  | create (freshId : String) (now : Nat) (ins : InsertTodo) (m : TodoMap) :
      Reachable m → Reachable (createTodo freshId now ins m).2
  | update (id : String) (upd : UpdateTodo) (m : TodoMap) :
      Reachable m → Reachable (updateTodo id upd m).2
  | delete (id : String) (m : TodoMap) :
      Reachable m → Reachable (deleteTodo id m).2

/-- Representation invariant of the store: map keys are pairwise distinct (a
JS `Map` guarantee) and every record is stored under its own `id` field. -/
def StoreInv (m : TodoMap) : Prop :=
  (m.map Prod.fst).Nodup ∧ ∀ p ∈ m, (Prod.snd p).id = Prod.fst p

/-! ### Lemmas about the JS `Map` operations -/

theorem jsGet_jsSet_self (m : TodoMap) (k : String) (v : Todo) :
    jsGet (jsSet m k v) k = some v := by
  induction m with
  | nil => simp [jsGet, jsSet]
  | cons hd tl ih =>
      obtain ⟨k', v'⟩ := hd
      by_cases h : k' = k
      · simp [jsGet, jsSet, h]
      · simp [jsGet, jsSet, h, ih]

theorem jsGet_jsSet_ne (m : TodoMap) (k k' : String) (v : Todo) (h : k ≠ k') :
    jsGet (jsSet m k v) k' = jsGet m k' := by
  induction m with
  | nil => simp [jsGet, jsSet, h]
  | cons hd tl ih =>
      obtain ⟨k'', v''⟩ := hd
      by_cases h1 : k'' = k
      · subst h1
        simp [jsGet, jsSet, h]
      · by_cases h2 : k'' = k'
        · subst h2
          simp [jsGet, jsSet, h1]
        · simp [jsGet, jsSet, h1, h2, ih]

theorem jsSet_eq_of_jsGet (m : TodoMap) (k : String) (v : Todo)
    (h : jsGet m k = some v) : jsSet m k v = m := by
  induction m with
  | nil => simp [jsGet] at h
  | cons hd tl ih =>
      obtain ⟨k', v'⟩ := hd
      by_cases h1 : k' = k
      · simp [jsGet, h1] at h
        simp [jsSet, h1, h]
      · simp [jsGet, h1] at h
        simp [jsSet, h1, ih h]

theorem mem_jsSet (m : TodoMap) (k : String) (v : Todo) (p : String × Todo)
    (h : p ∈ jsSet m k v) : p ∈ m ∨ p = (k, v) := by
  induction m with
  | nil => simpa [jsSet] using h
  | cons hd tl ih =>
      obtain ⟨k', v'⟩ := hd
      by_cases h1 : k' = k
      · simp [jsSet, h1] at h
        rcases h with h | h
        · right; simp [h, h1]
        · left; simp [h]
      · simp [jsSet, h1] at h
        rcases h with h | h
        · left; simp [h]
        · rcases ih h with h' | h'
          · left; simp [h']
          · right; exact h'

theorem keys_jsSet_mem (m : TodoMap) (k : String) (v : Todo) (a : String)
    (h : a ∈ (jsSet m k v).map Prod.fst) : a ∈ m.map Prod.fst ∨ a = k := by
  simp only [List.mem_map] at h
  obtain ⟨p, hp, rfl⟩ := h
  rcases mem_jsSet m k v p hp with h' | h'
  · left; exact List.mem_map_of_mem Prod.fst h'
  · right; simp [h']

theorem nodup_keys_jsSet (m : TodoMap) (k : String) (v : Todo)
    (h : (m.map Prod.fst).Nodup) : ((jsSet m k v).map Prod.fst).Nodup := by
  induction m with
  | nil => simp [jsSet]
  | cons hd tl ih =>
      obtain ⟨k', v'⟩ := hd
      simp only [List.map_cons, List.nodup_cons] at h
      by_cases h1 : k' = k
      · subst h1
        simp [jsSet, List.nodup_cons, h.1, h.2]
      · simp only [jsSet, if_neg h1, List.map_cons, List.nodup_cons]
        refine ⟨fun hmem => ?_, ih h.2⟩
        rcases keys_jsSet_mem tl k v k' hmem with h' | h'
        · exact h.1 h'
        · exact h1 h'

theorem jsGet_mem (m : TodoMap) (k : String) (v : Todo)
    (h : jsGet m k = some v) : (k, v) ∈ m := by
  induction m with
  | nil => simp [jsGet] at h
  | cons hd tl ih =>
      obtain ⟨k', v'⟩ := hd
      by_cases h1 : k' = k
      · simp [jsGet, h1] at h
        simp [h1, h]
      · simp [jsGet, h1] at h
        exact List.mem_cons_of_mem _ (ih h)

theorem jsGet_eq_none_of_not_mem_keys (m : TodoMap) (k : String)
    (h : k ∉ m.map Prod.fst) : jsGet m k = none := by
  induction m with
  | nil => simp [jsGet]
  | cons hd tl ih =>
      obtain ⟨k', v'⟩ := hd
      simp only [List.map_cons, List.mem_cons] at h
      push_neg at h
      have h1 : k' ≠ k := fun hh => h.1 hh.symm
      simp [jsGet, h1, ih h.2]

theorem jsGet_eq_of_mem (m : TodoMap) (k : String) (v : Todo)
    (hmem : (k, v) ∈ m) (hnd : (m.map Prod.fst).Nodup) : jsGet m k = some v := by
  induction m with
  | nil => simp at hmem
  | cons hd tl ih =>
      obtain ⟨k', v'⟩ := hd
      simp only [List.map_cons, List.nodup_cons] at hnd
      rcases List.mem_cons.mp hmem with h | h
      · injection h with hk hv
        simp [jsGet, ← hk, ← hv]
      · have hk : k' ≠ k := by
          intro hk'
          subst hk'
          exact hnd.1 (by simpa using List.mem_map_of_mem Prod.fst h)
        simp [jsGet, hk, ih h hnd.2]

theorem jsDelete_snd_sublist (m : TodoMap) (k : String) :
    (jsDelete m k).2.Sublist m := by
  induction m with
  | nil => simp [jsDelete]
  | cons hd tl ih =>
      obtain ⟨k', v'⟩ := hd
      by_cases h1 : k' = k
      · simp [jsDelete, h1]
      · simp only [jsDelete, if_neg h1]
        exact ih.cons₂ _

theorem jsDelete_fst_true (m : TodoMap) (k : String) (v : Todo)
    (h : jsGet m k = some v) : (jsDelete m k).1 = true := by
  induction m with
  | nil => simp [jsGet] at h
  | cons hd tl ih =>
      obtain ⟨k', v'⟩ := hd
      by_cases h1 : k' = k
      · simp [jsDelete, h1]
      · simp [jsGet, h1] at h
        simp [jsDelete, h1, ih h]

theorem jsDelete_of_jsGet_none (m : TodoMap) (k : String)
    (h : jsGet m k = none) : jsDelete m k = (false, m) := by
  induction m with
  | nil => simp [jsDelete]
  | cons hd tl ih =>
      obtain ⟨k', v'⟩ := hd
      by_cases h1 : k' = k
      · simp [jsGet, h1] at h
      · simp [jsGet, h1] at h
        simp [jsDelete, h1, ih h]

theorem jsGet_jsDelete_self (m : TodoMap) (k : String)
    (hnd : (m.map Prod.fst).Nodup) : jsGet (jsDelete m k).2 k = none := by
  induction m with
  | nil => simp [jsDelete, jsGet]
  | cons hd tl ih =>
      obtain ⟨k', v'⟩ := hd
      simp only [List.map_cons, List.nodup_cons] at hnd
      by_cases h1 : k' = k
      · simp only [jsDelete, if_pos h1]
        exact jsGet_eq_none_of_not_mem_keys tl k (h1 ▸ hnd.1)
      · simp [jsDelete, jsGet, h1, ih hnd.2]

/-! ### The representation invariant holds in every reachable state -/

theorem storeInv_jsSet (m : TodoMap) (k : String) (v : Todo)
    (hinv : StoreInv m) (hv : v.id = k) : StoreInv (jsSet m k v) := by
  refine ⟨nodup_keys_jsSet m k v hinv.1, fun p hp => ?_⟩
  rcases mem_jsSet m k v p hp with h | h
  · exact hinv.2 p h
  · subst h
    exact hv

theorem storeInv_empty : StoreInv [] := ⟨List.nodup_nil, by simp⟩

theorem storeInv_of_reachable (m : TodoMap) (h : Reachable m) : StoreInv m := by
  induction h with
  | empty => exact storeInv_empty
  | create freshId now ins m _ ih =>
      exact storeInv_jsSet m freshId _ ih rfl
  | update id upd m _ ih =>
      cases hg : jsGet m id with
      | none => simpa [updateTodo, hg] using ih
      | some existingTodo =>
          have hid : existingTodo.id = id := ih.2 (id, existingTodo) (jsGet_mem m id existingTodo hg)
          simp only [updateTodo, hg]
          exact storeInv_jsSet m id _ ih hid
  | delete id m _ ih =>
      refine ⟨ih.1.sublist ((jsDelete_snd_sublist m id).map Prod.fst), fun p hp => ?_⟩
      exact ih.2 p ((jsDelete_snd_sublist m id).subset hp)

/-! ### The claims -/

/-- C2: the claim states that a create call omitting `completed` yields a
stored Task with `completed = false`.  The code does not do this: the parsed
insert object simply lacks the key, `{ ...insertTodo, id, createdAt }` spreads
that absence into the stored record, and no default is applied anywhere in
`MemStorage` — `completed` ends up `undefined` (modelled `none`), violating
the record type `Todo` the code itself declares for the stored value. -/
theorem C2_completed_undefined_when_omitted :
    (createTodo "id-1" 0 ⟨"Buy milk", none⟩ []).1.completed = none ∧
    (createTodo "id-1" 0 ⟨"Buy milk", none⟩ []).1.completed ≠ some false ∧
    getTodo "id-1" (createTodo "id-1" 0 ⟨"Buy milk", none⟩ []).2 =
      some { id := "id-1", text := "Buy milk", completed := none, createdAt := 0 } := by
  refine ⟨rfl, by decide, by decide⟩

/-- C7: `updateTodo` on an id not in the store returns `undefined` and leaves
the store completely unchanged; in particular its size is unaltered and no
Task is created. -/
theorem C7_update_missing_id_is_noop (id : String) (upd : UpdateTodo) (m : TodoMap)
    (h : getTodo id m = none) :
    updateTodo id upd m = (none, m) ∧
    ((updateTodo id upd m).2).length = m.length := by
  have h' : jsGet m id = none := h
  constructor
  · simp [updateTodo, h']
  · simp [updateTodo, h']

theorem C7_witness :
    updateTodo "b" ⟨some "y", some true⟩ [("a", ⟨"a", "x", none, 1⟩)] =
      (none, [("a", ⟨"a", "x", none, 1⟩)]) ∧
    ((updateTodo "b" ⟨some "y", some true⟩ [("a", ⟨"a", "x", none, 1⟩)]).2).length =
      ([("a", ⟨"a", "x", none, 1⟩)] : TodoMap).length :=
  C7_update_missing_id_is_noop "b" ⟨some "y", some true⟩ [("a", ⟨"a", "x", none, 1⟩)] (by decide)

/-- C4: updating an existing Task with `{completed: true}` changes only
`completed`; more generally the shallow merge `{ ...existingTodo, ...updates }`
leaves `id` and `createdAt` unchanged always, and leaves `text` / `completed`
unchanged whenever the partial input does not carry that key. -/
theorem C4_update_changes_only_given_fields (id : String) (m : TodoMap) (t : Todo)
    (upd : UpdateTodo) (h : getTodo id m = some t) :
    (updateTodo id ⟨none, some true⟩ m).1 = some { t with completed := some true } ∧
    ∀ t', (updateTodo id upd m).1 = some t' →
      t'.id = t.id ∧ t'.createdAt = t.createdAt ∧
      (upd.text = none → t'.text = t.text) ∧
      (upd.completed = none → t'.completed = t.completed) := by
  have h' : jsGet m id = some t := h
  constructor
  · simp [updateTodo, h']
  · intro t' ht'
    obtain ⟨ut, uc⟩ := upd
    cases ut <;> cases uc <;> simp only [updateTodo, h', Option.some.injEq] at ht' <;>
      subst ht' <;> simp

theorem C4_witness :
    (updateTodo "a" ⟨none, some true⟩ [("a", ⟨"a", "write", none, 3⟩)]).1 =
      some ⟨"a", "write", some true, 3⟩ :=
  (C4_update_changes_only_given_fields "a" [("a", ⟨"a", "write", none, 3⟩)]
    ⟨"a", "write", none, 3⟩ ⟨none, none⟩ (by decide)).1

/-- C10: the empty partial body `{}` passes `insertTodoSchema.partial()`
validation, and on an existing id the resulting update is an identity: the
handler answers 200 with the unchanged Task and the store state is exactly the
one before the call. -/
theorem C10_empty_patch_is_identity (id : String) (m : TodoMap) (t : Todo)
    (h : getTodo id m = some t) :
    updateTodoSchemaParse (Json.obj []) = Except.ok ⟨none, none⟩ ∧
    updateTodo id ⟨none, none⟩ m = (some t, m) ∧
    patchTodoRoute id (Json.obj []) m = (⟨200, Body.todoJson t⟩, m) := by
  have h' : jsGet m id = some t := h
  have hupd : updateTodo id ⟨none, none⟩ m = (some t, m) := by
    simp only [updateTodo, h']
    have heta : ({ id := t.id, text := t.text, completed := t.completed,
                   createdAt := t.createdAt } : Todo) = t := rfl
    rw [heta, jsSet_eq_of_jsGet m id t h']
  refine ⟨rfl, hupd, ?_⟩
  simp [patchTodoRoute, updateTodoSchemaParse, jsonLookup, hupd]

theorem C10_witness :
    updateTodoSchemaParse (Json.obj []) = Except.ok ⟨none, none⟩ ∧
    updateTodo "a" ⟨none, none⟩ [("a", ⟨"a", "x", some true, 7⟩)] =
      (some ⟨"a", "x", some true, 7⟩, [("a", ⟨"a", "x", some true, 7⟩)]) ∧
    patchTodoRoute "a" (Json.obj []) [("a", ⟨"a", "x", some true, 7⟩)] =
      (⟨200, Body.todoJson ⟨"a", "x", some true, 7⟩⟩, [("a", ⟨"a", "x", some true, 7⟩)]) :=
  C10_empty_patch_is_identity "a" [("a", ⟨"a", "x", some true, 7⟩)]
    ⟨"a", "x", some true, 7⟩ (by decide)

/-- C6: deleting an existing Task removes it (a subsequent `getTodo` of that
id is `undefined`); deleting the id again returns `false` and leaves the store
state exactly as after the first deletion (idempotent in effect). -/
theorem C6_delete_semantics (id : String) (m : TodoMap) (t : Todo)
    (hr : Reachable m) (h : getTodo id m = some t) :
    (deleteTodo id m).1 = true ∧
    getTodo id (deleteTodo id m).2 = none ∧
    deleteTodo id (deleteTodo id m).2 = (false, (deleteTodo id m).2) := by
  have hnd := (storeInv_of_reachable m hr).1
  have h' : jsGet m id = some t := h
  have h2 : jsGet (jsDelete m id).2 id = none := jsGet_jsDelete_self m id hnd
  exact ⟨jsDelete_fst_true m id t h', h2, jsDelete_of_jsGet_none _ id h2⟩

theorem C6_witness :
    (deleteTodo "a" (createTodo "a" 1 ⟨"x", none⟩ []).2).1 = true ∧
    getTodo "a" (deleteTodo "a" (createTodo "a" 1 ⟨"x", none⟩ []).2).2 = none ∧
    deleteTodo "a" (deleteTodo "a" (createTodo "a" 1 ⟨"x", none⟩ []).2).2 =
      (false, (deleteTodo "a" (createTodo "a" 1 ⟨"x", none⟩ []).2).2) :=
  C6_delete_semantics "a" (createTodo "a" 1 ⟨"x", none⟩ []).2 ⟨"a", "x", none, 1⟩
    (Reachable.create "a" 1 ⟨"x", none⟩ [] Reachable.empty) (by decide)

/-- C1, counterexample: the claim says POST `{text: ""}` is rejected with 400
and never reaches the store.  The generated schema only requires `text` to be
a string — `z.string()` accepts the empty string — so the request in fact
validates, the store is called, and the handler answers 201 with a created
Task whose text is empty. -/
theorem C1_empty_text_not_rejected :
    (postTodoRoute (Json.obj [("text", Json.str "")]) "id-1" 0 []).1.status = 201 ∧
    (postTodoRoute (Json.obj [("text", Json.str "")]) "id-1" 0 []).2 ≠ ([] : TodoMap) := by
  exact ⟨by decide, by decide⟩

/-- C1, amended: a POST whose body is `{text: ""}` passes schema validation
(`insertTodoSchema` only checks that `text` is a string), so the Router calls
the store and responds 201, having created a Task with empty `text` — the
server does not enforce non-emptiness. -/
theorem C1_empty_text_accepted (freshId : String) (now : Nat) (m : TodoMap) :
    insertTodoSchemaParse (Json.obj [("text", Json.str "")]) = Except.ok ⟨"", none⟩ ∧
    (postTodoRoute (Json.obj [("text", Json.str "")]) freshId now m).1.status = 201 ∧
    (postTodoRoute (Json.obj [("text", Json.str "")]) freshId now m).2 =
      jsSet m freshId ⟨freshId, "", none, now⟩ := by
  refine ⟨rfl, ?_, ?_⟩ <;>
    simp [postTodoRoute, insertTodoSchemaParse, jsonLookup, createTodo]

/-- C3: `getTodos` returns all current Tasks ordered by `createdAt`
descending — it is a permutation of the map's values that is sorted under
`createdAtDesc`; the empty store yields `[]`; and three Tasks created at times
t1 < t2 < t3 come back as [third, second, first]. -/
theorem C3_getTodos_sorted_descending (m : TodoMap) (i1 i2 i3 : String)
    (ins1 ins2 ins3 : InsertTodo) (t1 t2 t3 : Nat)
    (h12 : i1 ≠ i2) (h13 : i1 ≠ i3) (h23 : i2 ≠ i3)
    (ht12 : t1 < t2) (ht23 : t2 < t3) :
    (getTodos m).Perm (m.map Prod.snd) ∧
    List.Sorted createdAtDesc (getTodos m) ∧
    getTodos ([] : TodoMap) = [] ∧
    getTodos (createTodo i3 t3 ins3 (createTodo i2 t2 ins2 (createTodo i1 t1 ins1 []).2).2).2 =
      [(createTodo i3 t3 ins3 (createTodo i2 t2 ins2 (createTodo i1 t1 ins1 []).2).2).1,
       (createTodo i2 t2 ins2 (createTodo i1 t1 ins1 []).2).1,
       (createTodo i1 t1 ins1 []).1] := by
  refine ⟨List.perm_insertionSort createdAtDesc (m.map Prod.snd),
          List.sorted_insertionSort createdAtDesc (m.map Prod.snd), rfl, ?_⟩
  have hbc : ¬ createdAtDesc ⟨i2, ins2.text, ins2.completed, t2⟩
      ⟨i3, ins3.text, ins3.completed, t3⟩ := by
    simp only [createdAtDesc]
    omega
  have hac : ¬ createdAtDesc ⟨i1, ins1.text, ins1.completed, t1⟩
      ⟨i3, ins3.text, ins3.completed, t3⟩ := by
    simp only [createdAtDesc]
    omega
  have hab : ¬ createdAtDesc ⟨i1, ins1.text, ins1.completed, t1⟩
      ⟨i2, ins2.text, ins2.completed, t2⟩ := by
    simp only [createdAtDesc]
    omega
  simp only [createTodo, jsSet, if_neg h12, if_neg h13, if_neg h23, getTodos,
             List.map_cons, List.map_nil]
  simp only [List.insertionSort, List.orderedInsert, if_neg hbc, if_neg hac, if_neg hab]

theorem C3_witness :
    getTodos (createTodo "c" 30 ⟨"third", none⟩
        (createTodo "b" 20 ⟨"second", none⟩ (createTodo "a" 10 ⟨"first", none⟩ []).2).2).2 =
      [(createTodo "c" 30 ⟨"third", none⟩
          (createTodo "b" 20 ⟨"second", none⟩ (createTodo "a" 10 ⟨"first", none⟩ []).2).2).1,
       (createTodo "b" 20 ⟨"second", none⟩ (createTodo "a" 10 ⟨"first", none⟩ []).2).1,
       (createTodo "a" 10 ⟨"first", none⟩ []).1] :=
  (C3_getTodos_sorted_descending [] "a" "b" "c" ⟨"first", none⟩ ⟨"second", none⟩
    ⟨"third", none⟩ 10 20 30 (by decide) (by decide) (by decide)
    (by decide) (by decide)).2.2.2

/-- C8: map keys are pairwise distinct in every reachable state and records
are stored under their own ids, so `id` is unique across all live Tasks; and
two successive creates with the same insert payload but (as `randomUUID`
guarantees) different generated ids yield two distinct Tasks, both present
afterwards. -/
theorem C8_id_unique_and_create_twice_distinct (m : TodoMap) (hr : Reachable m)
    (i1 i2 : String) (n1 n2 : Nat) (ins : InsertTodo) (h12 : i1 ≠ i2) :
    ((m.map Prod.snd).map Todo.id).Nodup ∧
    (createTodo i1 n1 ins m).1 ≠ (createTodo i2 n2 ins (createTodo i1 n1 ins m).2).1 ∧
    getTodo i1 (createTodo i2 n2 ins (createTodo i1 n1 ins m).2).2 =
      some (createTodo i1 n1 ins m).1 ∧
    getTodo i2 (createTodo i2 n2 ins (createTodo i1 n1 ins m).2).2 =
      some (createTodo i2 n2 ins (createTodo i1 n1 ins m).2).1 := by
  have hinv := storeInv_of_reachable m hr
  refine ⟨?_, ?_, ?_, ?_⟩
  · have hmap : (m.map Prod.snd).map Todo.id = m.map Prod.fst := by
      rw [List.map_map]
      exact List.map_congr_left fun p hp => hinv.2 p hp
    rw [hmap]
    exact hinv.1
  · intro hcontra
    exact h12 (congrArg Todo.id hcontra)
  · show jsGet (jsSet (jsSet m i1 _) i2 _) i1 = _
    rw [jsGet_jsSet_ne _ i2 i1 _ (Ne.symm h12), jsGet_jsSet_self]
    rfl
  · exact jsGet_jsSet_self _ i2 _

theorem C8_witness :
    (createTodo "u1" 1 ⟨"same text", none⟩ []).1 ≠
      (createTodo "u2" 2 ⟨"same text", none⟩ (createTodo "u1" 1 ⟨"same text", none⟩ []).2).1 ∧
    getTodo "u1" (createTodo "u2" 2 ⟨"same text", none⟩
        (createTodo "u1" 1 ⟨"same text", none⟩ []).2).2 =
      some (createTodo "u1" 1 ⟨"same text", none⟩ []).1 :=
  let h := C8_id_unique_and_create_twice_distinct [] Reachable.empty "u1" "u2" 1 2
    ⟨"same text", none⟩ (by decide)
  ⟨h.2.1, h.2.2.1⟩

/-- C9: in every reachable store state, each Task listed by `getTodos` is
retrievable under its own `id` — the map key always equals the record's `id`
field, so `getTodo t.id` returns exactly `t`. -/
theorem C9_every_task_retrievable_by_its_id (m : TodoMap) (hr : Reachable m) :
    ∀ t ∈ getTodos m, getTodo t.id m = some t := by
  intro t ht
  have hinv := storeInv_of_reachable m hr
  have hmem : t ∈ m.map Prod.snd :=
    (List.perm_insertionSort createdAtDesc (m.map Prod.snd)).subset ht
  obtain ⟨p, hp, rfl⟩ := List.mem_map.mp hmem
  have hid : p.2.id = p.1 := hinv.2 p hp
  rw [show getTodo p.2.id m = jsGet m p.2.id from rfl, hid]
  exact jsGet_eq_of_mem m p.1 p.2 hp hinv.1

theorem C9_witness :
    getTodo "a" (createTodo "a" 5 ⟨"x", none⟩ []).2 = some ⟨"a", "x", none, 5⟩ := by
  have h := C9_every_task_retrievable_by_its_id (createTodo "a" 5 ⟨"x", none⟩ []).2
    (Reachable.create "a" 5 ⟨"x", none⟩ [] Reachable.empty)
  exact h ⟨"a", "x", none, 5⟩ (by decide)

/-- C5: the Router maps outcomes to status codes exactly as specified —
200 for the list route, 201 for a validated creation, 400 (with the store
untouched) when either schema rejects the body, 200 for a found read or
update, 204 with an empty body for a successful deletion, and 404 whenever
the store reports absence on read, update or delete. -/
theorem C5_router_status_mapping (m : TodoMap) (id freshId : String) (now : Nat)
    (body pbody : Json) (t : Todo) :
    (getTodosRoute m).1.status = 200 ∧
    (∀ ins, insertTodoSchemaParse body = Except.ok ins →
        (postTodoRoute body freshId now m).1.status = 201) ∧
    (∀ issues, insertTodoSchemaParse body = Except.error issues →
        (postTodoRoute body freshId now m).1 =
          ⟨400, Body.errorJson "Invalid todo data" (some issues)⟩ ∧
        (postTodoRoute body freshId now m).2 = m) ∧
    (getTodo id m = some t → (getTodoRoute id m).1 = ⟨200, Body.todoJson t⟩) ∧
    (getTodo id m = none → (getTodoRoute id m).1.status = 404) ∧
    (∀ upd, updateTodoSchemaParse pbody = Except.ok upd →
        (∀ t', (updateTodo id upd m).1 = some t' →
            (patchTodoRoute id pbody m).1 = ⟨200, Body.todoJson t'⟩) ∧
        ((updateTodo id upd m).1 = none → (patchTodoRoute id pbody m).1.status = 404)) ∧
    (∀ issues, updateTodoSchemaParse pbody = Except.error issues →
        (patchTodoRoute id pbody m).1.status = 400 ∧
        (patchTodoRoute id pbody m).2 = m) ∧
    ((deleteTodo id m).1 = true → (deleteTodoRoute id m).1 = ⟨204, Body.empty⟩) ∧
    ((deleteTodo id m).1 = false → (deleteTodoRoute id m).1.status = 404) := by
  refine ⟨rfl, ?_, ?_, ?_, ?_, ?_, ?_, ?_, ?_⟩
  · intro ins hins
    simp [postTodoRoute, hins]
  · intro issues hiss
    constructor <;> simp [postTodoRoute, hiss]
  · intro ht
    simp [getTodoRoute, ht]
  · intro ht
    simp [getTodoRoute, ht]
  · intro upd hupd
    constructor
    · intro t' ht'
      simp [patchTodoRoute, hupd, ht']
    · intro ht'
      simp [patchTodoRoute, hupd, ht']
  · intro issues hiss
    constructor <;> simp [patchTodoRoute, hiss]
  · intro hdel
    simp [deleteTodoRoute, hdel]
  · intro hdel
    simp [deleteTodoRoute, hdel]

theorem C5_witness :
    (getTodosRoute [("a", ⟨"a", "x", some false, 1⟩)]).1.status = 200 ∧
    (postTodoRoute (Json.obj [("text", Json.str "hi")]) "b" 2
        [("a", ⟨"a", "x", some false, 1⟩)]).1.status = 201 ∧
    (postTodoRoute (Json.obj []) "b" 2 [("a", ⟨"a", "x", some false, 1⟩)]).1 =
      ⟨400, Body.errorJson "Invalid todo data" (some [⟨"text", "invalid_type"⟩])⟩ ∧
    (getTodoRoute "a" [("a", ⟨"a", "x", some false, 1⟩)]).1 =
      ⟨200, Body.todoJson ⟨"a", "x", some false, 1⟩⟩ ∧
    (getTodoRoute "z" [("a", ⟨"a", "x", some false, 1⟩)]).1.status = 404 ∧
    (patchTodoRoute "a" (Json.obj [("completed", Json.bool true)])
        [("a", ⟨"a", "x", some false, 1⟩)]).1 =
      ⟨200, Body.todoJson ⟨"a", "x", some true, 1⟩⟩ ∧
    (patchTodoRoute "z" (Json.obj [("completed", Json.bool true)])
        [("a", ⟨"a", "x", some false, 1⟩)]).1.status = 404 ∧
    (patchTodoRoute "a" (Json.obj [("completed", Json.num 3)])
        [("a", ⟨"a", "x", some false, 1⟩)]).1.status = 400 ∧
    (deleteTodoRoute "a" [("a", ⟨"a", "x", some false, 1⟩)]).1 = ⟨204, Body.empty⟩ ∧
    (deleteTodoRoute "z" [("a", ⟨"a", "x", some false, 1⟩)]).1.status = 404 := by
  have hA := C5_router_status_mapping [("a", ⟨"a", "x", some false, 1⟩)] "a" "b" 2
    (Json.obj [("text", Json.str "hi")]) (Json.obj [("completed", Json.bool true)])
    ⟨"a", "x", some false, 1⟩
  have hZ := C5_router_status_mapping [("a", ⟨"a", "x", some false, 1⟩)] "z" "b" 2
    (Json.obj []) (Json.obj [("completed", Json.bool true)])
    ⟨"a", "x", some false, 1⟩
  have hB := C5_router_status_mapping [("a", ⟨"a", "x", some false, 1⟩)] "a" "b" 2
    (Json.obj []) (Json.obj [("completed", Json.num 3)])
    ⟨"a", "x", some false, 1⟩
  refine ⟨hA.1, hA.2.1 ⟨"hi", none⟩ rfl, (hZ.2.2.1 [⟨"text", "invalid_type"⟩] rfl).1,
          hA.2.2.2.1 (by decide), hZ.2.2.2.2.1 (by decide),
          (hA.2.2.2.2.2.1 ⟨none, some true⟩ rfl).1 ⟨"a", "x", some true, 1⟩ (by decide),
          (hZ.2.2.2.2.2.1 ⟨none, some true⟩ rfl).2 (by decide),
          (hB.2.2.2.2.2.2.1 [⟨"completed", "invalid_type"⟩] rfl).1,
          hA.2.2.2.2.2.2.2.1 (by decide), hZ.2.2.2.2.2.2.2.2 (by decide)⟩

end TodoForge
